import Mathlib

/-!
Verification of the page-builder content engine of the book-editor
repository.  The TypeScript sources are shallowly embedded:

* DOM trees become the inductive `HNode`; element nodes carry a numeric
  `nid` that models JavaScript object identity of live DOM nodes
  (references such as `element.nextElementSibling` and the reference
  argument of `Node.insertBefore` compare by identity, which the
  embedding renders as equality of `nid`s).
* Inline styles and attributes are association lists in declaration
  order; `setAttribute` / `style.setProperty` update the first binding
  in place or append, `style.removeProperty` deletes the binding.
* `innerHTML` parsing is browser behaviour, outside the repository: a
  `Doc` therefore pairs a raw HTML string with the node list the
  browser parses it into, and claims quantify over such pairs.
* `Date.now()` / `Math.random()` inside `generateElementId` are
  modelled by explicit supplies of (timestamp, random suffix) pairs.
* Layout geometry (`getBoundingClientRect`) is modelled by a function
  from node identity to (top, height) rationals.
* DOM exceptions (`Node.insertBefore` with a reference node whose
  parent is not the target) are modelled with `Except DomErr`.
-/

set_option maxRecDepth 8000

namespace BookBuilder

/-! ## String utilities (JavaScript `includes`, `trim`, `match` count) -/

/-- JavaScript `String.prototype.includes` on character lists: scan every
suffix for the needle as a prefix. -/
def listIncludes (needle : List Char) : List Char → Bool
  | [] => needle.isEmpty
  | c :: t => needle.isPrefixOf (c :: t) || listIncludes needle t

/-- JavaScript `hay.includes(needle)` for strings. -/
def strIncludes (hay needle : String) : Bool :=
  listIncludes needle.data hay.data

/-- JavaScript `s.startsWith(p)`. -/
def strStartsWith (s p : String) : Bool :=
  p.data.isPrefixOf s.data

/-- Scan for non-overlapping matches; the fuel bounds the recursion and
`hay.length` steps always suffice, every call dropping at least one
character. -/
def countSubAux (needle : List Char) : Nat → List Char → Nat
  | 0, _ => 0
  | _ + 1, [] => 0
  | fuel + 1, c :: t =>
    if needle.isPrefixOf (c :: t) then
      1 + countSubAux needle fuel (t.drop (needle.length - 1))
    else
      countSubAux needle fuel t

/-- Number of matches of a global regex for a fixed literal: the
left-to-right non-overlapping scan performed by `hay.match(/needle/g)`. -/
def countSub (needle hay : List Char) : Nat :=
  countSubAux needle hay.length hay

/-- JavaScript `String.prototype.trim`: drop whitespace from both ends. -/
def jsTrim (s : String) : String :=
  ⟨((s.data.dropWhile Char.isWhitespace).reverse.dropWhile Char.isWhitespace).reverse⟩

/-- The identity attribute that marks Builder elements. -/
def markerAttr : String := "data-element-id"

/-- Source `hasBuilderElements`: `content.includes("data-element-id")`. -/
def hasBuilderElements (content : String) : Bool :=
  strIncludes content markerAttr

/-- Count of `data-element-id` matches, as in
`(content.match(/data-element-id/g) || []).length`. -/
def countMarker (content : String) : Nat :=
  countSub markerAttr.data content.data

/-! ## The DOM model -/

/-- A DOM node: a text node or an element with identity, tag name
(lower case), attributes, inline style declarations and children. -/
inductive HNode where
  | text (s : String)
  | elem (nid : Nat) (tag : String) (attrs : List (String × String))
      (style : List (String × String)) (children : List HNode)
deriving Repr

/-- Attribute / style association lists. -/
abbrev Attrs := List (String × String)

/-- Read the first binding of a key (as `getAttribute` /
`style.getPropertyValue` on our lists). -/
def assocGet : Attrs → String → Option String
  | [], _ => none
  | (k', v') :: t, k => if k' == k then some v' else assocGet t k

/-- Update the first binding in place, or append (as `setAttribute` /
assigning a style property). -/
def assocSet : Attrs → String → String → Attrs
  | [], k, v => [(k, v)]
  | (k', v') :: t, k, v => if k' == k then (k, v) :: t else (k', v') :: assocSet t k v

/-- Delete every binding of a key (as `style.removeProperty`). -/
def assocRemove : Attrs → String → Attrs
  | [], _ => []
  | (k', v') :: t, k => if k' == k then assocRemove t k else (k', v') :: assocRemove t k

namespace HNode

def isElem : HNode → Bool
  | .elem .. => true
  | .text _ => false

def nidOf : HNode → Nat
  | .elem n .. => n
  | .text _ => 0

def tagOf : HNode → String
  | .elem _ t .. => t
  | .text _ => ""

def childrenOf : HNode → List HNode
  | .elem _ _ _ _ cs => cs
  | .text _ => []

def getAttr : HNode → String → Option String
  | .elem _ _ a _ _, k => assocGet a k
  | .text _, _ => none

def styleGet : HNode → String → Option String
  | .elem _ _ _ st _, k => assocGet st k
  | .text _, _ => none

/-- Matching `querySelectorAll("[data-element-id]")`: attribute present. -/
def isTagged (n : HNode) : Bool :=
  (n.getAttr "data-element-id").isSome

/-- Replace the children list of an element node. -/
def withChildren : HNode → List HNode → HNode
  | .elem i t a st _, cs => .elem i t a st cs
  | .text s, _ => .text s

/-- Apply a transformation to the style declarations of an element node. -/
def withStyleF : HNode → (Attrs → Attrs) → HNode
  | .elem i t a st cs, g => .elem i t a (g st) cs
  | .text s, _ => .text s

/-- Set an attribute on an element node. -/
def setAttr : HNode → String → String → HNode
  | .elem i t a st cs, k, v => .elem i t (assocSet a k v) st cs
  | .text s, _, _ => .text s

end HNode

/-! ## Document-order traversals -/

mutual

/-- Predicate `p` holds at the node and every descendant. -/
def treeAllB (p : HNode → Bool) : HNode → Bool
  | .text s => p (.text s)
  | .elem i t a st cs => p (.elem i t a st cs) && forestAllB p cs

/-- Predicate `p` holds at every node of the forest. -/
def forestAllB (p : HNode → Bool) : List HNode → Bool
  | [] => true
  | c :: cs => treeAllB p c && forestAllB p cs

end

mutual

/-- Collect the node and its descendants matching `q`, in document
(pre-)order, as `querySelectorAll` does. -/
def treeCollect (q : HNode → Bool) : HNode → List HNode
  | .text s => if q (.text s) then [.text s] else []
  | .elem i t a st cs =>
    (if q (.elem i t a st cs) then [.elem i t a st cs] else []) ++ forestCollect q cs

/-- Collect all nodes of the forest matching `q`, in document order. -/
def forestCollect (q : HNode → Bool) : List HNode → List HNode
  | [] => []
  | c :: cs => treeCollect q c ++ forestCollect q cs

end

mutual

/-- Is there an element matching `q` in the tree (node itself included)? -/
def treeAnyElem (q : HNode → Bool) : HNode → Bool
  | .text _ => false
  | .elem i t a st cs => q (.elem i t a st cs) || forestAnyElem q cs

/-- Is there an element matching `q` anywhere in the forest? -/
def forestAnyElem (q : HNode → Bool) : List HNode → Bool
  | [] => false
  | c :: cs => treeAnyElem q c || forestAnyElem q cs

end

mutual

/-- Remove every node matching `q` (with its subtree) at any depth,
keeping the node itself. -/
def filterDescN (q : HNode → Bool) : HNode → HNode
  | .text s => .text s
  | .elem i t a st cs => .elem i t a st (filterDescL q cs)

/-- Remove every node matching `q` (with its subtree) from the forest,
at any depth. -/
def filterDescL (q : HNode → Bool) : List HNode → List HNode
  | [] => []
  | c :: cs =>
    (if q c then [] else [filterDescN q c]) ++ filterDescL q cs

end

/-- All tagged descendants of a container, in document order:
`container.querySelectorAll("[data-element-id]")`. -/
def containerTagged (c : HNode) : List HNode :=
  forestCollect HNode.isTagged c.childrenOf

/-- First descendant of the container whose identity attribute equals
the given id, as `container.querySelector` with the attribute selector does. -/
def queryFirstTagged (c : HNode) (id : String) : Option HNode :=
  (forestCollect (fun n => n.getAttr "data-element-id" == some id) c.childrenOf).head?

/-! ## Serialization (`innerHTML` / `outerHTML` readback) -/

/-- Render a style declaration list as the text of a style attribute. -/
def serializeStyle (st : Attrs) : String :=
  String.intercalate "; " (st.map (fun p => p.1 ++ ": " ++ p.2))

/-- Render an attribute list. -/
def serializeAttrs (a : Attrs) : String :=
  String.join (a.map (fun p => " " ++ p.1 ++ "=\"" ++ p.2 ++ "\""))

mutual

/-- Markup of a node (`outerHTML`).  The model serializes every element
with an explicit end tag; the claims below only inspect the output
through substring containment, which this rendering preserves. -/
def serializeN : HNode → String
  | .text s => s
  | .elem _ t a st cs =>
    "<" ++ t ++ serializeAttrs a ++
      (if st.isEmpty then "" else " style=\"" ++ serializeStyle st ++ "\"") ++
      ">" ++ serializeL cs ++ "</" ++ t ++ ">"

/-- Markup of a forest (`innerHTML` of its parent). -/
def serializeL : List HNode → String
  | [] => ""
  | c :: cs => serializeN c ++ serializeL cs

end

mutual

/-- Concatenated text content of a node (`textContent`). -/
def textContentN : HNode → String
  | .text s => s
  | .elem _ _ _ _ cs => textContentL cs

/-- Concatenated text content of a forest. -/
def textContentL : List HNode → String
  | [] => ""
  | c :: cs => textContentN c ++ textContentL cs

end

/-- The `innerHTML` of a container node. -/
def innerHTMLOf (c : HNode) : String := serializeL c.childrenOf

/-- Assigning `innerHTML` invokes the browser HTML parser, which lives
outside the repository.  A `Doc` pairs a raw HTML string with the node
list the browser parses it into; functions that parse strings receive
the pair. -/
structure Doc where
  raw : String
  dom : List HNode
deriving Repr

/-! ## builderUtils: identity generation, base styling, normalization -/

/-- Source `generateElementId(prefix, tagName?)`.  `Date.now()` and
`Math.random().toString(36).substr(2, 9)` are impure; the embedding
takes the timestamp `ts` and random suffix `rnd` as arguments. -/
def generateElementId (pre : String) (tagName : Option String)
    (ts : Nat) (rnd : String) : String :=
  pre ++ (match tagName with
    | some tg => "-" ++ tg.toLower
    | none => "") ++ "-" ++ toString ts ++ "-" ++ rnd

/-- Source `applyBuilderStyling`, acting on the style declarations.  The
`window.getComputedStyle` read in the source can never influence the
outcome: the condition `!element.style.color || currentColor === ...`
is already true whenever the inline color is unset, which is the only
case in which `currentColor` falls back to the computed style. -/
def applyBuilderStylingStyle (isImported : Bool) (st : Attrs) : Attrs :=
  let st1 := assocSet (assocSet (assocSet st "cursor" "pointer") "min-height" "20px")
    "position" "relative"
  let st2 :=
    match assocGet st1 "color" with
    | none => assocSet st1 "color" "#1f2937"
    | some c =>
      if c == "" || c == "gray" || c == "rgb(128, 128, 128)" || c == "#808080" then
        assocSet st1 "color" "#1f2937"
      else st1
  let st3 :=
    match assocGet st2 "opacity" with
    | none => st2
    | some o => if o != "" && o != "1" then assocSet st2 "opacity" "1" else st2
  if isImported then
    let pad := match assocGet st3 "padding" with
      | none => "10px"
      | some p => if p == "" then "10px" else p
    let st4 := assocSet st3 "padding" pad
    let mar := match assocGet st4 "margin" with
      | none => "10px 0"
      | some m => if m == "" then "10px 0" else m
    let st5 := assocSet st4 "margin" mar
    let bor := match assocGet st5 "border" with
      | none => "1px dashed transparent"
      | some b => if b == "" then "1px dashed transparent" else b
    let st6 := assocSet st5 "border" bor
    assocSet st6 "border-radius" "4px"
  else st3

/-- Source `applyBuilderStyling` on a node. -/
def applyBuilderStyling (isImported : Bool) (n : HNode) : HNode :=
  n.withStyleF (applyBuilderStylingStyle isImported)

/-- Tags skipped by `processElementForBuilder` (DOM tag names are upper
case in the source; the model stores tags in lower case). -/
def skipTags : List String := ["script", "style", "meta", "link", "title", "br"]

/-- Tags of the block-structure selector
`div, p, h1, h2, h3, h4, h5, h6, ul, ol, li, blockquote, table, figure`. -/
def blockTags : List String :=
  ["div", "p", "h1", "h2", "h3", "h4", "h5", "h6", "ul", "ol", "li",
   "blockquote", "table", "figure"]

mutual

/-- Source `processElementForBuilder`: skip non-visual tags, skip
elements whose identity attribute is already truthy, otherwise assign a
fresh `imported-<tag>` id, apply imported base styling and recurse into
the element children.  The supply index `k` threads the successive
`generateElementId` calls. -/
def processNodeFB (sup : Nat → Nat × String) : HNode → Nat → HNode × Nat
  | .text s, k => (.text s, k)
  | .elem i t a st cs, k =>
    if skipTags.contains t then (.elem i t a st cs, k)
    else
      match assocGet a "data-element-id" with
      | some v =>
        if v == "" then
          let uid := generateElementId "imported" (some t) (sup k).1 (sup k).2
          let (cs', k') := processForestFB sup cs (k + 1)
          (.elem i t (assocSet a "data-element-id" uid)
            (applyBuilderStylingStyle true st) cs', k')
        else (.elem i t a st cs, k)
      | none =>
        let uid := generateElementId "imported" (some t) (sup k).1 (sup k).2
        let (cs', k') := processForestFB sup cs (k + 1)
        (.elem i t (assocSet a "data-element-id" uid)
          (applyBuilderStylingStyle true st) cs', k')

/-- Iteration `Array.from(element.children).forEach(processElementForBuilder)`:
only element children are visited, text nodes stay in place. -/
def processForestFB (sup : Nat → Nat × String) : List HNode → Nat → List HNode × Nat
  | [], k => ([], k)
  | c :: cs, k =>
    let (c', k') := processNodeFB sup c k
    let (cs', k'') := processForestFB sup cs k'
    (c' :: cs', k'')

end

/-- The fixed empty-canvas placeholder markup returned for blank input. -/
def placeholderHtml : String :=
  "<div style=\"padding: 40px; text-align: center; color: #6b7280; font-style: italic;\">Start building your layout by dragging elements from the sidebar</div>"

/-- Source `ProcessedContent`. -/
structure ProcessedContent where
  html : String
  wasAlreadyProcessed : Bool
  elementCount : Nat
deriving Repr, DecidableEq

/-- Source `processContentForBuilder`. -/
def processContentForBuilder (sup : Nat → Nat × String) (content : Doc) :
    ProcessedContent :=
  if jsTrim content.raw == "" then
    { html := placeholderHtml, wasAlreadyProcessed := false, elementCount := 0 }
  else if hasBuilderElements content.raw then
    { html := content.raw, wasAlreadyProcessed := true,
      elementCount := countMarker content.raw }
  else
    let dom := content.dom
    let hasOnlyTextAndInlineElements :=
      !(forestAnyElem (fun n => blockTags.contains n.tagOf) dom)
    let hasContent :=
      decide (0 < (textContentL dom).length) || strIncludes (serializeL dom) "<"
    if hasOnlyTextAndInlineElements && hasContent then
      let wrapper : HNode :=
        .elem 0 "div"
          [("data-element-id",
            generateElementId "imported-content" none (sup 0).1 (sup 0).2)]
          (applyBuilderStylingStyle true []) dom
      { html := serializeN wrapper, wasAlreadyProcessed := false, elementCount := 1 }
    else
      let (dom', _) := processForestFB sup dom 0
      { html := serializeL dom', wasAlreadyProcessed := false,
        elementCount := (forestCollect HNode.isTagged dom').length }

/-! ## Style annotator: selection styling and image resize handles -/

/-- The selection outline value. -/
def selOutline : String := "2px solid #f97316"

/-- The selection box-shadow value. -/
def selShadow : String := "0 0 0 4px rgba(249, 115, 22, 0.1)"

/-- Does a node carry the three inline declarations written by
`applySelectionStyling`? -/
def hasSelStyles (n : HNode) : Bool :=
  n.styleGet "outline" == some selOutline &&
  n.styleGet "outline-offset" == some "2px" &&
  n.styleGet "box-shadow" == some selShadow

/-- A tagged element currently showing selection styling. -/
def styledQ (n : HNode) : Bool := n.isTagged && hasSelStyles n

/-- Nodes matched by `querySelectorAll(".image-resize-handle")`. -/
def isHandleNode (n : HNode) : Bool :=
  n.getAttr "class" == some "image-resize-handle"

/-- One of the four corner resize handles created by
`addImageResizeHandles`.  The `mousedown` resize listener attached in
the source is interaction behaviour and has no footprint in the
serialized tree. -/
def mkHandle (pos cursor : String) (posProps : Attrs) : HNode :=
  .elem 0 "div" [("class", "image-resize-handle"), ("data-handle", pos)]
    ([("position", "absolute"), ("width", "12px"), ("height", "12px"),
      ("background-color", "#f97316"), ("border", "2px solid white"),
      ("border-radius", "50%"), ("cursor", cursor), ("z-index", "1000"),
      ("box-shadow", "0 2px 4px rgba(0,0,0,0.3)"), ("pointer-events", "auto")] ++
      posProps) []

def handleNW : HNode := mkHandle "nw" "nw-resize" [("top", "-6px"), ("left", "-6px")]
def handleNE : HNode := mkHandle "ne" "ne-resize" [("top", "-6px"), ("right", "-6px")]
def handleSW : HNode := mkHandle "sw" "sw-resize" [("bottom", "-6px"), ("left", "-6px")]
def handleSE : HNode := mkHandle "se" "se-resize" [("bottom", "-6px"), ("right", "-6px")]

/-- Source image test: the tag is `img` or an `img` descendant exists. -/
def isImageBearing (t : String) (cs : List HNode) : Bool :=
  t == "img" || forestAnyElem (fun m => m.tagOf == "img") cs

/-- The positioning fix of `addImageResizeHandles`: force relative
positioning when the inline position is unset (falsy) or static. -/
def fixPosition (st : Attrs) : Attrs :=
  match assocGet st "position" with
  | none => assocSet st "position" "relative"
  | some v => if v == "" || v == "static" then assocSet st "position" "relative" else st

/-- Source `applySelectionStyling` (the variant with image resize
handles): set the three selection declarations, and for image-bearing
elements run `addImageResizeHandles` — remove existing handles, force
relative positioning when the inline position is unset or static, and
append the four corner handles. -/
def applySelectionStyling (n : HNode) : HNode :=
  match n with
  | .text s => .text s
  | .elem i t a st cs =>
    let st1 := assocSet (assocSet (assocSet st "outline" selOutline)
      "outline-offset" "2px") "box-shadow" selShadow
    if isImageBearing t cs then
      .elem i t a (fixPosition st1)
        (filterDescL isHandleNode cs ++ [handleNW, handleNE, handleSW, handleSE])
    else .elem i t a st1 cs

/-- The style part of `removeSelectionStyling`. -/
def removeSelectionStylingStyle (st : Attrs) : Attrs :=
  assocSet (assocSet (assocSet st "outline" "none") "box-shadow" "none")
    "outline-offset" "0px"

/-- Source `removeSelectionStyling`: neutralize the three selection
declarations and, for image-bearing elements, remove the resize handles. -/
def removeSelectionStyling (n : HNode) : HNode :=
  match n with
  | .text s => .text s
  | .elem i t a st cs =>
    let st' := removeSelectionStylingStyle st
    let cs' := if isImageBearing t cs then filterDescL isHandleNode cs else cs
    .elem i t a st' cs'

mutual

/-- Source `clearAllSelections` over a subtree: every tagged node gets
`removeSelectionStyling`.  The imperative code sweeps a static
`querySelectorAll` snapshot top-down; this recursion processes children
first and then applies the clearing of the node itself, which yields
the same final tree (style writes on distinct nodes commute, and the
image test of each node is evaluated on its original children exactly
as the top-down sweep evaluates it for ancestors before their handles
are removed). -/
def clearAllSelectionsN : HNode → HNode
  | .text s => .text s
  | .elem i t a st cs =>
    let cs1 := clearAllSelectionsL cs
    let tagged := (assocGet a "data-element-id").isSome
    let st' := if tagged then removeSelectionStylingStyle st else st
    let cs2 := if tagged && isImageBearing t cs then filterDescL isHandleNode cs1 else cs1
    .elem i t a st' cs2

/-- Clearing over a forest of nodes. -/
def clearAllSelectionsL : List HNode → List HNode
  | [] => []
  | c :: cs => clearAllSelectionsN c :: clearAllSelectionsL cs

end

/-- Source `clearAllSelections(container)`: the sweep runs over
`container.querySelectorAll("[data-element-id]")`, that is over the
descendants of the container, never the container itself. -/
def clearAllSelections (c : HNode) : HNode :=
  c.withChildren (clearAllSelectionsL c.childrenOf)

mutual

/-- Apply `f` to the first node matching `p` in document order,
returning the new tree and whether a match was found. -/
def applyFirstWhereN (p : HNode → Bool) (f : HNode → HNode) (n : HNode) :
    HNode × Bool :=
  if p n then (f n, true)
  else
    match n with
    | .text s => (.text s, false)
    | .elem i t a st cs =>
      let (cs', fd) := applyFirstWhereL p f cs
      (.elem i t a st cs', fd)

/-- Apply `f` to the first match within a forest, document order. -/
def applyFirstWhereL (p : HNode → Bool) (f : HNode → HNode) :
    List HNode → List HNode × Bool
  | [] => ([], false)
  | c :: cs =>
    let (c', fd) := applyFirstWhereN p f c
    if fd then (c' :: cs, true)
    else
      let (cs', fd') := applyFirstWhereL p f cs
      (c' :: cs', fd')

end

/-- Mutate the first node carrying the given identity attribute
with `applySelectionStyling`, leaving the container otherwise unchanged. -/
def applySelectionAt (c : HNode) (id : String) : HNode :=
  c.withChildren
    (applyFirstWhereL (fun n => n.getAttr "data-element-id" == some id)
      applySelectionStyling c.childrenOf).1

/-! ## Selection manager (`useBuilderSelection.selectElement`) -/

/-- Source `ElementSelection`; the live-node reference is modelled by
the node identity. -/
structure ElementSelection where
  selectedElementId : Option String
  selectedElement : Option Nat
deriving Repr, DecidableEq

/-- Source `selectElement(elementId)`: always clear every visual
selection first, then record the id, then style the element if the id
is truthy and a matching live node exists.  Note that the recorded
`selectedElementId` is the argument itself, found or not. -/
def builderSelectElement (container : HNode) (elementId : Option String) :
    HNode × ElementSelection :=
  let c1 := clearAllSelections container
  match elementId with
  | none => (c1, { selectedElementId := none, selectedElement := none })
  | some id =>
    if id == "" then (c1, { selectedElementId := some id, selectedElement := none })
    else
      match queryFirstTagged c1 id with
      | none => (c1, { selectedElementId := some id, selectedElement := none })
      | some el =>
        (applySelectionAt c1 id,
         { selectedElementId := some id, selectedElement := some el.nidOf })

/-- The tagged descendants of a container that visually carry selection
styling. -/
def styledTagged (c : HNode) : List HNode :=
  forestCollect styledQ c.childrenOf

/-! ## Drag and drop engine (`useBuilderDragDrop`) -/

/-- Callback invocations observable at the hook boundary. -/
inductive Ev where
  | contentUpdate (content : String)
  | refreshListeners
  | elementSelect (elementId : String)
deriving Repr, DecidableEq

/-- Source `DragDropState`. -/
structure DragDropState where
  draggedElementType : Option String
  draggedElementId : Option String
deriving Repr, DecidableEq

/-- DOM exceptions crossing the engine boundary.  `Node.insertBefore`
throws `NotFoundError` when the reference node is not a child of the
node the method is called on. -/
inductive DomErr where
  | notFound
deriving Repr, DecidableEq

mutual

/-- Strip the three selection style properties
(`style.removeProperty`) from every tagged node of a tree, as the
`saveCleanContent` sweep does on the clone. -/
def cleanN : HNode → HNode
  | .text s => .text s
  | .elem i t a st cs =>
    .elem i t a
      (if (assocGet a "data-element-id").isSome then
        assocRemove (assocRemove (assocRemove st "outline") "outline-offset") "box-shadow"
      else st)
      (cleanL cs)

/-- The same sweep over a forest. -/
def cleanL : List HNode → List HNode
  | [] => []
  | c :: cs => cleanN c :: cleanL cs

end

/-- Source `saveCleanContent` acting on the deep clone: the sweep runs
over `querySelectorAll("[data-element-id]")` of the clone, that is over
descendants only. -/
def cleanForSave (c : HNode) : HNode :=
  c.withChildren (cleanL c.childrenOf)

/-- The `cleanContent` string passed to `onContentUpdate`: the cleaned
clone read back through `innerHTML`.  The live container is a pure
value here, so producing this string cannot mutate it. -/
def cleanContentOf (c : HNode) : String :=
  innerHTMLOf (cleanForSave c)

/-- Events emitted by `saveCleanContent`: nothing when the content ref
is not mounted, otherwise one `onContentUpdate` with the clean markup. -/
def saveCleanContentEvents (contentRef : Option HNode) : List Ev :=
  match contentRef with
  | none => []
  | some c => [.contentUpdate (cleanContentOf c)]

/-- Drop indicator nodes (`querySelectorAll(".drop-indicator")`). -/
def isIndicatorNode (n : HNode) : Bool :=
  n.getAttr "class" == some "drop-indicator"

/-- Removal of lingering drop indicators from the container. -/
def removeIndicators (c : HNode) : HNode :=
  c.withChildren (filterDescL isIndicatorNode c.childrenOf)

/-! ### findInsertPosition -/

/-- The absolute value `Math.abs`, written with the sign test so that
it evaluates on concrete rationals; `absQ_eq_abs` below identifies it
with the mathematical absolute value. -/
def absQ (x : ℚ) : ℚ := if x < 0 then -x else x

/-- Vertical midpoint of an element under a layout `rects` assigning
(top, height) to each node identity (`getBoundingClientRect`). -/
def elMid (rects : Nat → ℚ × ℚ) (n : HNode) : ℚ :=
  (rects n.nidOf).1 + (rects n.nidOf).2 / 2

/-- Distance from the pointer to the midpoint. -/
def elDist (rects : Nat → ℚ × ℚ) (dropY : ℚ) (n : HNode) : ℚ :=
  absQ (dropY - elMid rects n)

/-- One step of the source scan.  The accumulator is `none` for the
initial `minDistance = Infinity`, against which every finite distance
wins, and otherwise carries `(minDistance, insertBefore)`. -/
def fipStep (rects : Nat → ℚ × ℚ) (dropY : ℚ)
    (acc : Option (ℚ × Option Nat)) (n : HNode) : Option (ℚ × Option Nat) :=
  let mid := elMid rects n
  let d := absQ (dropY - mid)
  match acc with
  | none => some (d, if dropY < mid then some n.nidOf else none)
  | some (m, ib) =>
    if d < m then some (d, if dropY < mid then some n.nidOf else none)
    else some (m, ib)

/-- The scan of `findInsertPosition` over an already collected element
list. -/
def fipScan (rects : Nat → ℚ × ℚ) (dropY : ℚ) (els : List HNode) : Option Nat :=
  match els.foldl (fipStep rects dropY) none with
  | none => none
  | some (_, ib) => ib

/-- Source `findInsertPosition`: scan every tagged element of the
container (at any depth, as `querySelectorAll` returns them) and keep
the reference chosen at the last strict improvement of the distance. -/
def findInsertPosition (rects : Nat → ℚ × ℚ) (dropY : ℚ)
    (contentRef : Option HNode) : Option Nat :=
  match contentRef with
  | none => none
  | some c => fipScan rects dropY (containerTagged c)

/-! ### reorderElement -/

/-- First element sibling in a list of following siblings. -/
def firstElemNid : List HNode → Option Nat
  | [] => none
  | c :: cs => if c.isElem then some c.nidOf else firstElemNid cs

/-- Search one children list for the target and give its next element
sibling; `some r` means the target lives here with
`nextElementSibling = r`. -/
def sibInList : List HNode → Nat → Option (Option Nat)
  | [], _ => none
  | c :: cs, tgt =>
    if c.isElem && c.nidOf == tgt then some (firstElemNid cs)
    else sibInList cs tgt

mutual

/-- Locate the parent of the target element anywhere in the tree and
report the next element sibling. -/
def sibSearchN : HNode → Nat → Option (Option Nat)
  | .text _, _ => none
  | .elem _ _ _ _ cs, tgt =>
    match sibInList cs tgt with
    | some r => some r
    | none => sibSearchL cs tgt

/-- The same search through a forest. -/
def sibSearchL : List HNode → Nat → Option (Option Nat)
  | [], _ => none
  | c :: cs, tgt =>
    match sibSearchN c tgt with
    | some r => some r
    | none => sibSearchL cs tgt

end

/-- Reading `element.nextElementSibling` for the element with identity `tgt`
inside `root` (`none` both for a last child and for a detached target,
as both read back as `null`). -/
def nextElemSibling (root : HNode) (tgt : Nat) : Option Nat :=
  (sibSearchN root tgt).join

mutual

/-- Remove the first node matching `p` in document order
(`element.remove()` on the query result). -/
def removeFirstWhereN (p : HNode → Bool) : HNode → HNode × Bool
  | .text s => (.text s, false)
  | .elem i t a st cs =>
    let (cs', fd) := removeFirstWhereL p cs
    (.elem i t a st cs', fd)

/-- Removal inside a forest. -/
def removeFirstWhereL (p : HNode → Bool) : List HNode → List HNode × Bool
  | [] => ([], false)
  | c :: cs =>
    if p c then (cs, true)
    else
      let (c', fd) := removeFirstWhereN p c
      if fd then (c' :: cs, true)
      else
        let (cs', fd') := removeFirstWhereL p cs
        (c' :: cs', fd')

end

mutual

/-- Rewrite the style of the first node matching `p` in document order. -/
def updateStyleFirstWhereN (p : HNode → Bool) (g : Attrs → Attrs) :
    HNode → HNode × Bool
  | .text s => (.text s, false)
  | .elem i t a st cs =>
    if p (.elem i t a st cs) then (.elem i t a (g st) cs, true)
    else
      let (cs', fd) := updateStyleFirstWhereL p g cs
      (.elem i t a st cs', fd)

/-- The same rewrite through a forest. -/
def updateStyleFirstWhereL (p : HNode → Bool) (g : Attrs → Attrs) :
    List HNode → List HNode × Bool
  | [] => ([], false)
  | c :: cs =>
    let (c', fd) := updateStyleFirstWhereN p g c
    if fd then (c' :: cs, true)
    else
      let (cs', fd') := updateStyleFirstWhereL p g cs
      (c' :: cs', fd')

end

/-- Insert `newNode` among the children of the container node. -/
def insertChildAt : List HNode → Nat → HNode → List HNode
  | [], _, nn => [nn]
  | c :: cs, r, nn =>
    if c.isElem && c.nidOf == r then nn :: c :: cs else c :: insertChildAt cs r nn

/-- Operation `container.insertBefore(newNode, ref)` / `container.appendChild`:
with a reference node that is not a current child of the container the
DOM throws `NotFoundError`. -/
def insertBeforeTop (c : HNode) (newNode : HNode) (ref : Option Nat) :
    Except DomErr HNode :=
  match c with
  | .text _ => (.error .notFound : Except DomErr HNode)
  | .elem i t a st cs =>
    match ref with
    | none => .ok (.elem i t a st (cs ++ [newNode]))
    | some r =>
      if cs.any (fun ch => ch.isElem && ch.nidOf == r) then
        .ok (.elem i t a st (insertChildAt cs r newNode))
      else .error .notFound

/-- The drag-reset style writes performed on the moved node:
`opacity = "1"` and `removeProperty` of the three selection styles. -/
def dragResetStyle (st : Attrs) : Attrs :=
  assocRemove (assocRemove (assocRemove (assocSet st "opacity" "1")
    "outline") "outline-offset") "box-shadow"

/-- Source `reorderElement(elementId, insertBefore)`.  Missing
container or element: silent failure.  Unchanged position (the
insertion reference is identical to the current next element sibling):
silent no-op.  Otherwise the node is reset, detached and reinserted —
which throws when the reference is not a direct child of the container
at that point — then restyled, and the hook saves, refreshes listeners
and reselects. -/
def reorderElement (contentRef : Option HNode) (elementId : String)
    (insertBefore : Option Nat) :
    Except DomErr (Bool × Option HNode × List Ev) :=
  match contentRef with
  | none => .ok (false, none, [])
  | some c =>
    match queryFirstTagged c elementId with
    | none => .ok (false, some c, [])
    | some el =>
      if insertBefore == nextElemSibling c el.nidOf then .ok (false, some c, [])
      else
        let el1 := el.withStyleF dragResetStyle
        let c1 :=
          (removeFirstWhereL
            (fun n => n.getAttr "data-element-id" == some elementId)
            c.childrenOf).1
        match insertBeforeTop (c.withChildren c1) el1 insertBefore with
        | .error e => .error e
        | .ok c2 =>
          let c3 := c2.withChildren
            (updateStyleFirstWhereL
              (fun n => n.nidOf == el.nidOf && n.isElem)
              (applyBuilderStylingStyle false) c2.childrenOf).1
          .ok (true, some c3,
            saveCleanContentEvents (some c3) ++
              [.refreshListeners, .elementSelect elementId])

/-! ### createNewElement / createImageElement -/

/-- Source `ElementLibraryItem` (the icon is presentation only). -/
structure LibItem where
  id : String
  title : String
  template : Doc
deriving Repr

/-- Source `createNewElement(elementType)`.  The template string is
parsed through a scratch div; `firstElementChild` picks the first
element node of the parse, skipping leading text.  An empty canvas
(no tagged element, or markup containing the literal
`Start Building Your Layout`) is wiped before the append. -/
def createNewElement (lib : List LibItem) (contentRef : Option HNode)
    (elementType : String) (sup0 : Nat × String) :
    Bool × Option HNode × List Ev :=
  match (lib.find? (fun it => it.id == elementType)).map (fun it => it.template) with
  | none => (false, contentRef, [])
  | some tmpl =>
    if tmpl.raw == "" then (false, contentRef, [])
    else
      match contentRef with
      | none => (false, none, [])
      | some c =>
        match tmpl.dom.find? HNode.isElem with
        | none => (false, some c, [])
        | some newEl0 =>
          let uniqueId := generateElementId "element" none sup0.1 sup0.2
          let newEl := applyBuilderStyling false
            (newEl0.setAttr "data-element-id" uniqueId)
          let wipe := (containerTagged c).length == 0 ||
            strIncludes (innerHTMLOf c) "Start Building Your Layout"
          let base := if wipe then [] else c.childrenOf
          let c2 := c.withChildren (base ++ [newEl])
          (true, some c2,
            saveCleanContentEvents (some c2) ++
              [.refreshListeners, .elementSelect uniqueId])

/-- Source `createImageElement(imageUrl)`: synthesize the
figure / img / figcaption fragment, style it, wipe an empty canvas and
append.  `nidBase` supplies identities for the three fresh nodes. -/
def createImageElement (contentRef : Option HNode) (imageUrl : String)
    (sup0 : Nat × String) (nidBase : Nat) :
    Bool × Option HNode × List Ev :=
  match contentRef with
  | none => (false, none, [])
  | some c =>
    let uniqueId := generateElementId "element" none sup0.1 sup0.2
    let img : HNode :=
      .elem (nidBase + 1) "img" [("src", imageUrl), ("alt", "Uploaded image")]
        [("max-width", "100%"), ("height", "auto"), ("border-radius", "8px"),
         ("box-shadow", "0 4px 6px -1px rgba(0, 0, 0, 0.1)")] []
    let figcap : HNode :=
      .elem (nidBase + 2) "figcaption" []
        [("margin-top", "8px"), ("font-size", "14px"), ("color", "#64748b"),
         ("font-style", "italic")] [.text "Image caption goes here"]
    let figure : HNode := applyBuilderStyling false
      (.elem nidBase "figure" [("data-element-id", uniqueId)]
        [("margin", "24px 0"), ("text-align", "center")] [img, figcap])
    let wipe := (containerTagged c).length == 0 ||
      strIncludes (innerHTMLOf c) "Start Building Your Layout"
    let base := if wipe then [] else c.childrenOf
    let c2 := c.withChildren (base ++ [figure])
    (true, some c2,
      saveCleanContentEvents (some c2) ++
        [.refreshListeners, .elementSelect uniqueId])

/-! ### handleDrop / handleDragEnd -/

/-- Inputs of one `handleDrop` invocation.  `imagePayload` models the
platform JSON parser together with the source checks
`parsed.type === "image" && parsed.imageUrl`: it yields the image URL
exactly when the guarded `JSON.parse` succeeds with an image payload,
and `none` in every fallback case (parse failure or shape mismatch),
all of which the source funnels into `createNewElement(data)`. -/
structure DropCfg where
  payload : String
  dropY : ℚ
  rects : Nat → ℚ × ℚ
  contentRef : Option HNode
  elementLibrary : List LibItem
  imagePayload : String → Option String
  sup : Nat × String
  nidBase : Nat

/-- The observable outcome of a normally-terminating drop. -/
structure DropResult where
  container : Option HNode
  events : List Ev
  dragState : DragDropState
deriving Repr

/-- Source `handleDrop`: remove lingering indicators, branch on the
payload (`existing:` reorder, guarded JSON image drop, plain library
element type, empty payload), and clear the drag state.  An exception
propagating out of `reorderElement` aborts the handler before the
`setDragState` call. -/
def handleDrop (cfg : DropCfg) : Except DomErr DropResult :=
  let cref := cfg.contentRef.map removeIndicators
  let data := cfg.payload
  if data != "" && strStartsWith data "existing:" then
    let elementId := data.drop 9
    if elementId != "" then
      match reorderElement cref elementId
          (findInsertPosition cfg.rects cfg.dropY cref) with
      | .error e => .error e
      | .ok (_, c', ev) =>
        .ok { container := c', events := ev,
              dragState := { draggedElementType := none, draggedElementId := none } }
    else
      .ok { container := cref, events := [],
            dragState := { draggedElementType := none, draggedElementId := none } }
  else if data != "" then
    let isJsonish := strStartsWith data "\x7b" && strIncludes data "\"type\"" &&
      strIncludes data "\"image\""
    let r :=
      if isJsonish then
        match cfg.imagePayload data with
        | some url => createImageElement cref url cfg.sup cfg.nidBase
        | none => createNewElement cfg.elementLibrary cref data cfg.sup
      else createNewElement cfg.elementLibrary cref data cfg.sup
    .ok { container := r.2.1, events := r.2.2,
          dragState := { draggedElementType := none, draggedElementId := none } }
  else
    .ok { container := cref, events := [],
          dragState := { draggedElementType := none, draggedElementId := none } }

mutual

/-- Opacity restore plus base restyling of every tagged node, as the
`handleDragEnd` sweep performs. -/
def dragEndSweepN : HNode → HNode
  | .text s => .text s
  | .elem i t a st cs =>
    .elem i t a
      (if (assocGet a "data-element-id").isSome then
        applyBuilderStylingStyle false (assocSet st "opacity" "1")
      else st)
      (dragEndSweepL cs)

/-- The sweep over a forest. -/
def dragEndSweepL : List HNode → List HNode
  | [] => []
  | c :: cs => dragEndSweepN c :: dragEndSweepL cs

end

/-- The observable outcome of `handleDragEnd`. -/
structure DragEndResult where
  container : Option HNode
  dragState : DragDropState
deriving Repr

/-- Source `handleDragEnd`: remove indicators, restore opacity and base
styling on every tagged element, and clear the drag state
unconditionally. -/
def handleDragEnd (contentRef : Option HNode) : DragEndResult :=
  match contentRef with
  | none =>
    { container := none,
      dragState := { draggedElementType := none, draggedElementId := none } }
  | some c =>
    let c1 := removeIndicators c
    { container := some (c1.withChildren (dragEndSweepL c1.childrenOf)),
      dragState := { draggedElementType := none, draggedElementId := none } }

/-! ## Specification-side rendering of the nearest-midpoint scan -/

/-- First element attaining the minimum of `f` (ties resolved to the
earlier element, matching a stable scan with strict comparison). -/
def argminFirst (f : HNode → ℚ) : List HNode → Option HNode
  | [] => none
  | x :: xs =>
    match argminFirst f xs with
    | none => some x
    | some y => if f y < f x then some y else some x

/-- The insertion reference the specification describes for a given
scanned element list: the first closest midpoint, insert before it when
the pointer is above the midpoint, append otherwise. -/
def specNearest (rects : Nat → ℚ × ℚ) (dropY : ℚ) (els : List HNode) : Option Nat :=
  match argminFirst (elDist rects dropY) els with
  | none => none
  | some y => if dropY < elMid rects y then some y.nidOf else none

/-- Modelled from the spec: the claimed variant of `findInsertPosition`
that scans only tagged top-level elements (direct children of the
container) instead of every tagged descendant. -/
def findInsertPositionTopLevel (rects : Nat → ℚ × ℚ) (dropY : ℚ)
    (contentRef : Option HNode) : Option Nat :=
  match contentRef with
  | none => none
  | some c => fipScan rects dropY (c.childrenOf.filter HNode.isTagged)

/-! ## Concrete inputs used by counterexamples and witnesses -/

/-- A fixed supply of (timestamp, random suffix) pairs. -/
def supW : Nat → Nat × String := fun k => (1700000000000 + k, "k7q2m1x9z")

/-- The browser parse of `placeholderHtml`: one div whose style
attribute carries the four inline declarations, with the instructional
text inside. -/
def placeholderDom : List HNode :=
  [.elem 0 "div" []
    [("padding", "40px"), ("text-align", "center"), ("color", "#6b7280"),
     ("font-style", "italic")]
    [.text "Start building your layout by dragging elements from the sidebar"]]

/-- A container holding one tagged paragraph with id `a`. -/
def cStale : HNode :=
  .elem 0 "div" [] []
    [.elem 1 "p" [("data-element-id", "a")] [] [.text "x"]]

/-- A container with a selected-styling candidate: a tagged figure
wrapping an image. -/
def cFigure : HNode :=
  .elem 0 "div" [] []
    [.elem 1 "figure" [("data-element-id", "fig")] [("margin", "24px 0")]
      [.elem 2 "img" [("src", "cover.png")] [] []]]

/-- The live container after selecting the figure: styled and carrying
the four corner resize handles. -/
def cFigureSelected : HNode := (builderSelectElement cFigure (some "fig")).1

/-- A container whose only top-level tagged element has a tagged nested
child (as the normalizer produces for nested structural markup). -/
def cNested : HNode :=
  .elem 0 "div" [] []
    [.elem 1 "div" [("data-element-id", "outer")] []
      [.elem 2 "p" [("data-element-id", "inner")] [] [.text "x"]]]

/-- Layout for `cNested`: the outer block spans y 0 to 100, the nested
paragraph y 0 to 10. -/
def rectsNested : Nat → ℚ × ℚ := fun n =>
  if n == 1 then (0, 100) else if n == 2 then (0, 10) else (1000, 1)

/-- Two sibling tagged paragraphs, used by the reorder scenarios. -/
def cPair : HNode :=
  .elem 0 "div" [] []
    [.elem 1 "p" [("data-element-id", "a")] [] [.text "first"],
     .elem 2 "p" [("data-element-id", "b")] [] [.text "second"]]

/-- Layout for `cPair` in which the pointer sits just above the first
paragraph of the pair, making the dragged element its own nearest
insertion reference. -/
def rectsPair : Nat → ℚ × ℚ := fun n =>
  if n == 1 then (0, 10) else if n == 2 then (20, 10) else (1000, 1)

/-- A drop configuration that reorders `a` of `cPair` to just above its
own midpoint: `findInsertPosition` resolves to the dragged element
itself, and the reinsertion throws after the element was detached. -/
def cfgSelfDrop : DropCfg :=
  { payload := "existing:a", dropY := 4, rects := rectsPair,
    contentRef := some cPair, elementLibrary := [],
    imagePayload := fun _ => none, sup := (1700000000000, "k7q2m1x9z"),
    nidBase := 50 }

/-- The same scenario dragging `b` with the pointer just above the
midpoint of `b` itself. -/
def rectsPairB : Nat → ℚ × ℚ := fun n =>
  if n == 1 then (20, 10) else if n == 2 then (0, 10) else (1000, 1)

/-- Drop configuration in which dragging `b` aborts inside
`reorderElement`. -/
def cfgSelfDropB : DropCfg :=
  { payload := "existing:b", dropY := 4, rects := rectsPairB,
    contentRef := some cPair, elementLibrary := [],
    imagePayload := fun _ => none, sup := (1700000000000, "k7q2m1x9z"),
    nidBase := 50 }

/-- A drop with an empty payload on an unmounted container. -/
def cfgEmptyDrop : DropCfg :=
  { payload := "", dropY := 0, rects := fun _ => (0, 1),
    contentRef := none, elementLibrary := [],
    imagePayload := fun _ => none, sup := (1700000000000, "k7q2m1x9z"),
    nidBase := 50 }

/-- A one-item element library holding the paragraph template. -/
def libParagraph : List LibItem :=
  [{ id := "paragraph", title := "Paragraph",
     template :=
      { raw := "<p style=\"margin: 16px 0; line-height: 1.6;\">New paragraph text</p>",
        dom := [.elem 10 "p" [] [("margin", "16px 0"), ("line-height", "1.6")]
          [.text "New paragraph text"]] } }]

/-- A canvas holding only untagged, manually typed markup. -/
def cUntagged : HNode :=
  .elem 0 "div" [] [] [.elem 3 "em" [] [] [.text "typed by hand"]]

/-- A container in which both paragraphs erroneously carry selection
styling before any `selectElement` call. -/
def cPrestyled : HNode :=
  .elem 0 "div" [] []
    [.elem 1 "p" [("data-element-id", "a")]
      [("outline", selOutline), ("outline-offset", "2px"), ("box-shadow", selShadow)]
      [.text "one"],
     .elem 2 "p" [("data-element-id", "b")]
      [("outline", selOutline), ("outline-offset", "2px"), ("box-shadow", selShadow)]
      [.text "two"]]

/-- A node free of the three selection style properties unless it is
untagged (the shape `saveCleanContent` guarantees in its output). -/
def noSelProps (n : HNode) : Bool :=
  !n.isTagged ||
    ((n.styleGet "outline" == none) && (n.styleGet "outline-offset" == none) &&
      (n.styleGet "box-shadow" == none))

/-! ## Induction principles -/

/-- Simultaneous induction over nodes and forests. -/
theorem HNode.pairInduction (P : HNode → Prop) (Q : List HNode → Prop)
    (ht : ∀ s, P (.text s))
    (he : ∀ i t a st cs, Q cs → P (.elem i t a st cs))
    (hn : Q [])
    (hc : ∀ c cs, P c → Q cs → Q (c :: cs)) :
    (∀ n, P n) ∧ (∀ cs, Q cs) := by
  have key : ∀ k : Nat, (∀ n : HNode, sizeOf n ≤ k → P n) ∧
      (∀ cs : List HNode, sizeOf cs ≤ k → Q cs) := by
    intro k
    induction k with
    | zero =>
      constructor
      · intro n hn'
        cases n <;> simp_all
      · intro cs hcs
        cases cs <;> simp_all
    | succ k ih =>
      constructor
      · intro n hn'
        cases n with
        | text s => exact ht s
        | elem i t a st cs =>
          refine he i t a st cs (ih.2 cs ?_)
          simp only [HNode.elem.sizeOf_spec] at hn'
          omega
      · intro cs hcs
        cases cs with
        | nil => exact hn
        | cons c t =>
          simp only [List.cons.sizeOf_spec] at hcs
          exact hc c t (ih.1 c (by omega)) (ih.2 t (by omega))
  exact ⟨fun n => (key (sizeOf n)).1 n le_rfl, fun cs => (key (sizeOf cs)).2 cs le_rfl⟩

/-! ## String lemmas -/

theorem listIncludes_exists_mem {needle hay : List Char}
    (hne : needle ≠ []) (h : listIncludes needle hay = true) :
    ∃ c ∈ hay, c ∈ needle := by
  induction hay with
  | nil =>
    rw [listIncludes, List.isEmpty_iff] at h
    exact absurd h hne
  | cons c t ih =>
    rw [listIncludes, Bool.or_eq_true] at h
    rcases h with h | h
    · obtain ⟨n0, ns, rfl⟩ := List.exists_cons_of_ne_nil hne
      have hp : n0 :: ns <+: c :: t := List.isPrefixOf_iff_prefix.mp h
      obtain ⟨r, hr⟩ := hp
      have hnc : n0 = c := by
        rw [List.cons_append] at hr
        exact (List.cons.injEq _ _ _ _ ▸ hr).1
      exact ⟨c, List.mem_cons_self c t, hnc ▸ List.mem_cons_self n0 ns⟩
    · obtain ⟨x, hx, hxn⟩ := ih h
      exact ⟨x, List.mem_cons_of_mem c hx, hxn⟩

theorem jsTrim_ne_empty {s : String} {c : Char}
    (hc : c ∈ s.data) (hw : ¬ c.isWhitespace = true) : jsTrim s ≠ "" := by
  intro he
  have hdata :
      ((s.data.dropWhile Char.isWhitespace).reverse.dropWhile Char.isWhitespace).reverse
        = ([] : List Char) := by
    have h0 := congrArg String.data he
    simpa [jsTrim] using h0
  rw [List.reverse_eq_nil_iff] at hdata
  have hall : ∀ x ∈ s.data.dropWhile Char.isWhitespace, x.isWhitespace = true := by
    intro x hx
    exact List.dropWhile_eq_nil_iff.mp hdata x (List.mem_reverse.mpr hx)
  have hall2 : ∀ x ∈ s.data, x.isWhitespace = true := by
    intro x hx
    rw [← List.takeWhile_append_dropWhile (p := Char.isWhitespace) (l := s.data)] at hx
    rcases List.mem_append.mp hx with h | h
    · exact List.mem_takeWhile_imp h
    · exact hall x h
  exact hw (hall2 c hc)

/-- A string containing the identity marker is not blank. -/
theorem blank_of_marker {s : String} (h : hasBuilderElements s = true) :
    (jsTrim s == "") = false := by
  have hne : markerAttr.data ≠ [] := by decide
  have h' : listIncludes markerAttr.data s.data = true := h
  obtain ⟨c, hc, hcm⟩ := listIncludes_exists_mem hne h'
  have hw : ¬ c.isWhitespace = true := by
    have hmk : ∀ x ∈ markerAttr.data, ¬ x.isWhitespace = true := by decide
    exact hmk c hcm
  exact beq_eq_false_iff_ne.mpr (jsTrim_ne_empty hc hw)

/-- Behaviour of the normalizer on marker-bearing input. -/
theorem processContent_marker_eq (sup : Nat → Nat × String) (d : Doc)
    (h : hasBuilderElements d.raw = true) :
    processContentForBuilder sup d =
      { html := d.raw, wasAlreadyProcessed := true,
        elementCount := countMarker d.raw } := by
  simp [processContentForBuilder, blank_of_marker h, h]

/-- Both branches reached for non-blank marker-free input report
unprocessed content. -/
theorem processContent_was_false (sup : Nat → Nat × String) (d : Doc)
    (h1 : (jsTrim d.raw == "") = false) (h2 : hasBuilderElements d.raw = false) :
    (processContentForBuilder sup d).wasAlreadyProcessed = false := by
  simp only [processContentForBuilder, h1, h2, Bool.false_eq_true, if_false]
  split <;> rfl

/-! ## C1: idempotence of normalization -/

/-- C1 counterexample: at the explicit input `""` the claim fails.  The
first normalization yields the untagged placeholder block, and
normalizing that placeholder reports `wasAlreadyProcessed = false`
(the claim asserts `true`), because the placeholder carries no
`data-element-id` marker and is re-processed. -/
theorem processContent_not_idempotent_on_empty :
    (processContentForBuilder supW { raw := "", dom := [] }).html = placeholderHtml ∧
    (processContentForBuilder supW
        { raw := placeholderHtml, dom := placeholderDom }).wasAlreadyProcessed = false := by
  constructor
  · rfl
  · exact processContent_was_false supW _ (by decide) (by decide)

/-- C1 (amended): normalization is idempotent on every input whose
normalized html contains the identity marker: renormalizing such
output (under any parse of it and any id supply) returns the html
unchanged with `wasAlreadyProcessed = true`.  The empty/whitespace
case is excluded: its placeholder output is untagged and gets
re-processed. -/
theorem processContent_idempotent_on_tagged_html (sup sup2 : Nat → Nat × String)
    (x : Doc) (dom2 : List HNode)
    (h : hasBuilderElements (processContentForBuilder sup x).html = true) :
    processContentForBuilder sup2
        { raw := (processContentForBuilder sup x).html, dom := dom2 } =
      { html := (processContentForBuilder sup x).html, wasAlreadyProcessed := true,
        elementCount := countMarker (processContentForBuilder sup x).html } :=
  processContent_marker_eq sup2 _ h

/-- C1 witness: renormalizing the normalization of a tagged paragraph
is the identity. -/
theorem processContent_idempotent_on_tagged_html_witness :
    processContentForBuilder supW
        { raw := (processContentForBuilder supW
            { raw := "<p data-element-id=\"a\">x</p>", dom := [] }).html, dom := [] } =
      { html := "<p data-element-id=\"a\">x</p>", wasAlreadyProcessed := true,
        elementCount := 1 } := by
  have h := processContent_idempotent_on_tagged_html supW supW
    { raw := "<p data-element-id=\"a\">x</p>", dom := [] } [] (by decide)
  rw [h]
  decide

/-! ## C9: marker branch counts raw substring occurrences -/

/-- C9: input containing the identity marker anywhere is returned
unchanged, with `elementCount` the number of raw matches of the
literal substring `data-element-id` in the string — occurrences inside
text content included, so the count can exceed the number of actually
tagged elements. -/
theorem processContent_marker_count_raw_occurrences (sup : Nat → Nat × String)
    (d : Doc) (h : hasBuilderElements d.raw = true) :
    processContentForBuilder sup d =
      { html := d.raw, wasAlreadyProcessed := true,
        elementCount := countMarker d.raw } :=
  processContent_marker_eq sup d h

/-- C9 witness: a marker occurring only in plain prose (zero tagged
elements) still yields `elementCount = 1` and the input unchanged. -/
theorem processContent_marker_count_raw_occurrences_witness :
    processContentForBuilder supW { raw := "hello data-element-id world", dom := [] } =
      { html := "hello data-element-id world", wasAlreadyProcessed := true,
        elementCount := 1 } := by
  have h := processContent_marker_count_raw_occurrences supW
    { raw := "hello data-element-id world", dom := [] } (by decide)
  rw [h]
  decide

/-! ## C6: reorder to the current position is a silent no-op -/

/-- C6: when the computed insertion reference is exactly the current
next element sibling of the dragged element, `reorderElement` returns
false, leaves the container untouched (the element is not detached and
no styling changes) and emits no events — in particular no
content-update. -/
theorem reorderElement_noop_same_position (c : HNode) (id : String) (el : HNode)
    (ib : Option Nat) (h1 : queryFirstTagged c id = some el)
    (h2 : ib = nextElemSibling c el.nidOf) :
    reorderElement (some c) id ib = .ok (false, some c, []) := by
  simp only [reorderElement, h1, h2, beq_self_eq_true, if_true]

/-- C6 witness: dropping the first paragraph of `cPair` right before
its current next sibling changes nothing and fires nothing. -/
theorem reorderElement_noop_same_position_witness :
    reorderElement (some cPair) "a" (some 2) = .ok (false, some cPair, []) :=
  reorderElement_noop_same_position cPair "a"
    (.elem 1 "p" [("data-element-id", "a")] [] [.text "first"]) (some 2) rfl rfl

/-! ## Association list lemmas -/

theorem assocGet_set_self (l : Attrs) (k v : String) :
    assocGet (assocSet l k v) k = some v := by
  induction l with
  | nil => simp [assocSet, assocGet]
  | cons p t ih =>
    obtain ⟨k', v'⟩ := p
    cases h : (k' == k) with
    | true => simp [assocSet, h, assocGet]
    | false => simp [assocSet, h, assocGet, ih]

theorem assocGet_set_ne (l : Attrs) (ks k v : String) (h : (ks == k) = false) :
    assocGet (assocSet l ks v) k = assocGet l k := by
  induction l with
  | nil => simp [assocSet, assocGet, h]
  | cons p t ih =>
    obtain ⟨k', v'⟩ := p
    cases hk : (k' == ks) with
    | true =>
      have hk' : k' = ks := eq_of_beq hk
      subst hk'
      simp [assocSet, assocGet, h]
    | false => simp [assocSet, hk, assocGet, ih]

theorem assocGet_remove_self (l : Attrs) (k : String) :
    assocGet (assocRemove l k) k = none := by
  induction l with
  | nil => simp [assocRemove, assocGet]
  | cons p t ih =>
    obtain ⟨k', v'⟩ := p
    cases h : (k' == k) with
    | true => simp [assocRemove, h, ih]
    | false => simp [assocRemove, h, assocGet, ih]

theorem assocGet_remove_preserve_none (l : Attrs) (ks k : String)
    (h : assocGet l k = none) : assocGet (assocRemove l ks) k = none := by
  induction l with
  | nil => simp [assocRemove, assocGet]
  | cons p t ih =>
    obtain ⟨k', v'⟩ := p
    cases hk : (k' == k) with
    | true => simp [assocGet, hk] at h
    | false =>
      rw [assocGet, hk] at h
      simp only [Bool.false_eq_true, if_false] at h
      cases hks : (k' == ks) with
      | true => simp [assocRemove, hks, ih h]
      | false => simp [assocRemove, hks, assocGet, hk, ih h]

/-! ## C2: serialization strips selection styling -/

/-- The cleaned style list of a tagged node lacks all three selection
properties. -/
theorem cleanStyle_no_props (st : Attrs) :
    assocGet (assocRemove (assocRemove (assocRemove st "outline") "outline-offset")
        "box-shadow") "outline" = none ∧
    assocGet (assocRemove (assocRemove (assocRemove st "outline") "outline-offset")
        "box-shadow") "outline-offset" = none ∧
    assocGet (assocRemove (assocRemove (assocRemove st "outline") "outline-offset")
        "box-shadow") "box-shadow" = none := by
  refine ⟨?_, ?_, ?_⟩
  · exact assocGet_remove_preserve_none _ _ _
      (assocGet_remove_preserve_none _ _ _ (assocGet_remove_self _ _))
  · exact assocGet_remove_preserve_none _ _ _ (assocGet_remove_self _ _)
  · exact assocGet_remove_self _ _

/-- Every node of a cleaned forest satisfies `noSelProps`. -/
theorem cleanL_noSelProps :
    (∀ n, treeAllB noSelProps (cleanN n) = true) ∧
    (∀ cs, forestAllB noSelProps (cleanL cs) = true) := by
  refine HNode.pairInduction _ _ ?_ ?_ ?_ ?_
  · intro s
    simp [cleanN, treeAllB, noSelProps, HNode.isTagged, HNode.getAttr]
  · intro i t a st cs ih
    rw [cleanN, treeAllB, Bool.and_eq_true]
    refine ⟨?_, ih⟩
    cases htag : (assocGet a "data-element-id").isSome with
    | false =>
      simp [noSelProps, HNode.isTagged, HNode.getAttr, htag]
    | true =>
      obtain ⟨h1, h2, h3⟩ := cleanStyle_no_props st
      simp [noSelProps, HNode.isTagged, HNode.getAttr, htag, HNode.styleGet, h1, h2, h3]
  · rfl
  · intro c cs hp hq
    rw [cleanL, forestAllB, Bool.and_eq_true]
    exact ⟨hp, hq⟩

/-- C2 (amended): the serialized save output carries no outline,
outline-offset or box-shadow declaration on any tagged element, and the
save operates on a deep clone only — the container is a pure value
threaded through unchanged — but resize-handle children are NOT
stripped: when the selected element carries them they appear in the
output (see the counterexample). -/
theorem saveCleanContent_strips_selection_props (c : HNode) :
    forestAllB noSelProps (cleanForSave c).childrenOf = true := by
  cases c with
  | text s => rfl
  | elem i t a st cs => exact cleanL_noSelProps.2 cs

/-- C2 counterexample: with the image-bearing figure selected (four
corner handles present on the live node), the saved output still
contains the four resize-handle artifacts, and the literal
`image-resize-handle` occurs in the serialized string — the claim
asserts the output has no resize-handle artifacts. -/
theorem saveCleanContent_keeps_resize_handles :
    (forestCollect isHandleNode (cleanForSave cFigureSelected).childrenOf).length = 4 ∧
    strIncludes (cleanContentOf cFigureSelected) "image-resize-handle" = true := by
  exact ⟨by rfl, by rfl⟩

/-! ## Sweep lemmas for the selection invariant -/

theorem forestAllB_append (p : HNode → Bool) (l1 l2 : List HNode) :
    forestAllB p (l1 ++ l2) = (forestAllB p l1 && forestAllB p l2) := by
  induction l1 with
  | nil => simp [forestAllB]
  | cons c t ih => simp [forestAllB, ih, Bool.and_assoc]

theorem forestCollect_append (q : HNode → Bool) (l1 l2 : List HNode) :
    forestCollect q (l1 ++ l2) = forestCollect q l1 ++ forestCollect q l2 := by
  induction l1 with
  | nil => simp [forestCollect]
  | cons c t ih => simp [forestCollect, ih]

/-- Removing subtrees preserves a node predicate that does not look at
children. -/
theorem filterDesc_preserves_allB (p q : HNode → Bool)
    (hp : ∀ i t a st cs cs', p (.elem i t a st cs) = p (.elem i t a st cs')) :
    (∀ n, treeAllB p n = true → treeAllB p (filterDescN q n) = true) ∧
    (∀ cs, forestAllB p cs = true → forestAllB p (filterDescL q cs) = true) := by
  refine HNode.pairInduction _ _ ?_ ?_ ?_ ?_
  · intro s h
    exact h
  · intro i t a st cs ih h
    rw [treeAllB, Bool.and_eq_true] at h
    rw [filterDescN, treeAllB, Bool.and_eq_true]
    exact ⟨(hp i t a st cs (filterDescL q cs)) ▸ h.1, ih h.2⟩
  · intro _
    rfl
  · intro c cs hpc hq h
    rw [forestAllB, Bool.and_eq_true] at h
    rw [filterDescL, forestAllB_append, Bool.and_eq_true]
    refine ⟨?_, hq h.2⟩
    cases hqc : q c with
    | true => rfl
    | false =>
      simp only [hqc, Bool.false_eq_true, if_false]
      rw [forestAllB, forestAllB, Bool.and_eq_true]
      exact ⟨hpc h.1, rfl⟩

/-- Nothing is collected from a forest on which the negated predicate
holds everywhere. -/
theorem collect_nil_of_allB (q : HNode → Bool) :
    (∀ n, treeAllB (fun m => !q m) n = true → treeCollect q n = []) ∧
    (∀ cs, forestAllB (fun m => !q m) cs = true → forestCollect q cs = []) := by
  refine HNode.pairInduction _ _ ?_ ?_ ?_ ?_
  · intro s h
    rw [treeAllB] at h
    rw [treeCollect]
    simp only [Bool.not_eq_true'] at h
    simp [h]
  · intro i t a st cs ih h
    rw [treeAllB, Bool.and_eq_true] at h
    rw [treeCollect]
    have h1 : q (.elem i t a st cs) = false := by
      have := h.1
      simpa using this
    simp [h1, ih h.2]
  · intro _
    rfl
  · intro c cs hpc hq h
    rw [forestAllB, Bool.and_eq_true] at h
    rw [forestCollect, hpc h.1, hq h.2]
    rfl

/-- The outline neutralization performed by `removeSelectionStyling`. -/
theorem removeSelStyle_outline (st : Attrs) :
    assocGet (removeSelectionStylingStyle st) "outline" = some "none" := by
  rw [removeSelectionStylingStyle]
  rw [assocGet_set_ne _ _ _ _ (by decide), assocGet_set_ne _ _ _ _ (by decide)]
  exact assocGet_set_self _ _ _

/-- After the clearing sweep no tagged node shows selection styling. -/
theorem clear_no_styled :
    (∀ n, treeAllB (fun m => !styledQ m) (clearAllSelectionsN n) = true) ∧
    (∀ cs, forestAllB (fun m => !styledQ m) (clearAllSelectionsL cs) = true) := by
  have hchild : ∀ i t a st cs cs',
      (fun m => !styledQ m) (HNode.elem i t a st cs) =
        (fun m => !styledQ m) (HNode.elem i t a st cs') := by
    intro i t a st cs cs'
    rfl
  refine HNode.pairInduction _ _ ?_ ?_ ?_ ?_
  · intro s
    rfl
  · intro i t a st cs ih
    rw [clearAllSelectionsN]
    cases htag : (assocGet a "data-element-id").isSome with
    | false =>
      simp only [htag, Bool.false_and, Bool.false_eq_true, if_false]
      rw [treeAllB, Bool.and_eq_true]
      constructor
      · simp [styledQ, HNode.isTagged, HNode.getAttr, htag]
      · exact ih
    | true =>
      simp only [htag, Bool.true_and]
      rw [treeAllB, Bool.and_eq_true]
      constructor
      · have hol := removeSelStyle_outline st
        simp [styledQ, hasSelStyles, HNode.styleGet, hol, selOutline]
      · cases himg : isImageBearing t cs with
        | false =>
          simp only [himg, Bool.false_eq_true, if_false]
          exact ih
        | true =>
          simp only [himg, if_true]
          exact (filterDesc_preserves_allB _ isHandleNode hchild).2 _ ih
  · rfl
  · intro c cs hpc hq
    rw [clearAllSelectionsL, forestAllB, Bool.and_eq_true]
    exact ⟨hpc, hq⟩

/-- The cleared container shows no selection styling at all. -/
theorem clear_children_all (container : HNode) :
    forestAllB (fun m => !styledQ m) (clearAllSelections container).childrenOf = true := by
  cases container with
  | text s => rfl
  | elem i t a st cs => exact clear_no_styled.2 cs

/-- No styled tagged element survives the clearing sweep. -/
theorem styledTagged_clear (container : HNode) :
    styledTagged (clearAllSelections container) = [] :=
  (collect_nil_of_allB styledQ).2 _ (clear_children_all container)

/-! ## C4: selection of a stale id -/

/-- C4 counterexample: selecting the id `ghost`, which matches no
element of `cStale`, records the dangling id — `selectedElementId`
becomes `some "ghost"`, not `none` as the claim states. -/
theorem selectElement_records_stale_id :
    (builderSelectElement cStale (some "ghost")).2.selectedElementId = some "ghost" ∧
    (builderSelectElement cStale (some "ghost")).2.selectedElementId ≠ none := by
  exact ⟨rfl, by decide⟩

/-- C4 (amended): for an id matching no element in the current
container, `selectElement` clears all visual selection and styles no
element, but it records the dangling id: the selection state becomes
`selectedElementId = id` with a null element reference, rather than
transitioning `selectedElementId` to null. -/
theorem selectElement_stale_id_clears_styling (container : HNode) (id : String)
    (h : queryFirstTagged (clearAllSelections container) id = none) :
    styledTagged (builderSelectElement container (some id)).1 = [] ∧
    (builderSelectElement container (some id)).2 =
      { selectedElementId := some id, selectedElement := none } := by
  have hc := styledTagged_clear container
  cases hid : (id == "") with
  | true =>
    constructor
    · simpa [builderSelectElement, hid] using hc
    · simp [builderSelectElement, hid]
  | false =>
    constructor
    · simpa [builderSelectElement, hid, h] using hc
    · simp [builderSelectElement, hid, h]

/-- C4 witness: the stale selection on the concrete container. -/
theorem selectElement_stale_id_clears_styling_witness :
    styledTagged (builderSelectElement cStale (some "ghost")).1 = [] ∧
    (builderSelectElement cStale (some "ghost")).2 =
      { selectedElementId := some "ghost", selectedElement := none } :=
  selectElement_stale_id_clears_styling cStale "ghost" (by rfl)

/-! ## C3: selection exclusivity -/

/-- The three selection declarations as read back after the write
chain of `applySelectionStyling`. -/
theorem selStyle_gets (st : Attrs) :
    assocGet (assocSet (assocSet (assocSet st "outline" selOutline)
        "outline-offset" "2px") "box-shadow" selShadow) "outline" = some selOutline ∧
    assocGet (assocSet (assocSet (assocSet st "outline" selOutline)
        "outline-offset" "2px") "box-shadow" selShadow) "outline-offset" = some "2px" ∧
    assocGet (assocSet (assocSet (assocSet st "outline" selOutline)
        "outline-offset" "2px") "box-shadow" selShadow) "box-shadow" = some selShadow := by
  refine ⟨?_, ?_, ?_⟩
  · rw [assocGet_set_ne _ _ _ _ (by decide), assocGet_set_ne _ _ _ _ (by decide)]
    exact assocGet_set_self _ _ _
  · rw [assocGet_set_ne _ _ _ _ (by decide)]
    exact assocGet_set_self _ _ _
  · exact assocGet_set_self _ _ _

/-- The positioning fix touches no other property. -/
theorem fixPosition_get_ne (st : Attrs) (k : String) (h : ("position" == k) = false) :
    assocGet (fixPosition st) k = assocGet st k := by
  rw [fixPosition]
  cases hpos : assocGet st "position" with
  | none => exact assocGet_set_ne _ _ _ _ h
  | some v =>
    cases hv : (v == "" || v == "static") with
    | true => simp only [hv, if_true]; exact assocGet_set_ne _ _ _ _ h
    | false => simp only [hv, Bool.false_eq_true, if_false]

/-- Applying selection styling to the matched node yields exactly one
styled tagged node, carrying the selected id, provided its subtree was
previously unstyled. -/
theorem applySelection_collect (id : String) (n : HNode)
    (hpm : (n.getAttr "data-element-id" == some id) = true)
    (hall : treeAllB (fun m => !styledQ m) n = true) :
    ∃ m, treeCollect styledQ (applySelectionStyling n) = [m] ∧
      (m.getAttr "data-element-id" == some id) = true := by
  cases n with
  | text s => simp [HNode.getAttr] at hpm
  | elem i t a st cs =>
    rw [treeAllB, Bool.and_eq_true] at hall
    obtain ⟨_, hcs⟩ := hall
    have hnil : forestCollect styledQ cs = [] := (collect_nil_of_allB styledQ).2 cs hcs
    obtain ⟨g1, g2, g3⟩ := selStyle_gets st
    have htag : (assocGet a "data-element-id").isSome = true := by
      have he : assocGet a "data-element-id" = some id := by
        have := eq_of_beq hpm
        exact this
      rw [he]
      rfl
    rw [applySelectionStyling]
    cases himg : isImageBearing t cs with
    | false =>
      simp only [himg, Bool.false_eq_true, if_false]
      refine ⟨HNode.elem i t a (assocSet (assocSet (assocSet st "outline" selOutline)
        "outline-offset" "2px") "box-shadow" selShadow) cs, ?_, hpm⟩
      rw [treeCollect]
      have hsty : styledQ (HNode.elem i t a (assocSet (assocSet (assocSet st "outline"
          selOutline) "outline-offset" "2px") "box-shadow" selShadow) cs) = true := by
        simp [styledQ, HNode.isTagged, HNode.getAttr, htag, hasSelStyles,
          HNode.styleGet, g1, g2, g3]
      rw [hsty]
      simp [hnil]
    | true =>
      simp only [himg, if_true]
      refine ⟨HNode.elem i t a (fixPosition (assocSet (assocSet (assocSet st "outline"
          selOutline) "outline-offset" "2px") "box-shadow" selShadow))
        (filterDescL isHandleNode cs ++ [handleNW, handleNE, handleSW, handleSE]),
        ?_, hpm⟩
      rw [treeCollect]
      have hf1 := fixPosition_get_ne (assocSet (assocSet (assocSet st "outline"
        selOutline) "outline-offset" "2px") "box-shadow" selShadow) "outline" (by decide)
      have hf2 := fixPosition_get_ne (assocSet (assocSet (assocSet st "outline"
        selOutline) "outline-offset" "2px") "box-shadow" selShadow) "outline-offset" (by decide)
      have hf3 := fixPosition_get_ne (assocSet (assocSet (assocSet st "outline"
        selOutline) "outline-offset" "2px") "box-shadow" selShadow) "box-shadow" (by decide)
      have hsty : styledQ (HNode.elem i t a (fixPosition (assocSet (assocSet (assocSet st
          "outline" selOutline) "outline-offset" "2px") "box-shadow" selShadow))
          (filterDescL isHandleNode cs ++ [handleNW, handleNE, handleSW, handleSE])) = true := by
        simp [styledQ, HNode.isTagged, HNode.getAttr, htag, hasSelStyles,
          HNode.styleGet, hf1, hf2, hf3, g1, g2, g3]
      rw [hsty]
      have hchild : ∀ i' t' a' st' cs1 cs2,
          (fun m => !styledQ m) (HNode.elem i' t' a' st' cs1) =
            (fun m => !styledQ m) (HNode.elem i' t' a' st' cs2) := by
        intro _ _ _ _ _ _
        rfl
      have hfil : forestCollect styledQ (filterDescL isHandleNode cs) = [] :=
        (collect_nil_of_allB styledQ).2 _
          ((filterDesc_preserves_allB _ isHandleNode hchild).2 cs hcs)
      have hhandles : forestCollect styledQ [handleNW, handleNE, handleSW, handleSE] = [] := by
        rfl
      rw [forestCollect_append, hfil, hhandles]
      simp

/-- Found flag of the first-match rewrite against emptiness of the
corresponding query. -/
theorem applyFirst_found_eq (p : HNode → Bool) (f : HNode → HNode) :
    (∀ n, ((applyFirstWhereN p f n).2 = false ↔ treeCollect p n = [])) ∧
    (∀ cs, ((applyFirstWhereL p f cs).2 = false ↔ forestCollect p cs = [])) := by
  refine HNode.pairInduction _ _ ?_ ?_ ?_ ?_
  · intro s
    cases hp : p (.text s) with
    | true => simp [applyFirstWhereN, hp, treeCollect]
    | false => simp [applyFirstWhereN, hp, treeCollect]
  · intro i t a st cs ih
    cases hp : p (.elem i t a st cs) with
    | true => simp [applyFirstWhereN, hp, treeCollect]
    | false =>
      rw [applyFirstWhereN]
      simp only [hp, Bool.false_eq_true, if_false]
      rw [treeCollect]
      simp only [hp, Bool.false_eq_true, if_false, List.nil_append]
      exact ih
  · simp [applyFirstWhereL, forestCollect]
  · intro c cs ihc ihcs
    rw [applyFirstWhereL, forestCollect]
    cases hfd : (applyFirstWhereN p f c).2 with
    | true =>
      simp only [hfd, if_true]
      constructor
      · intro h
        simp at h
      · intro h
        obtain ⟨h1, _⟩ := List.append_eq_nil.mp h
        have := ihc.mpr h1
        rw [this] at hfd
        cases hfd
    | false =>
      simp only [hfd, Bool.false_eq_true, if_false]
      rw [ihc.mp hfd]
      simpa using ihcs

/-- After the clearing sweep, rewriting the first id match with
`applySelectionStyling` leaves exactly the styled nodes the claim
describes. -/
theorem applyFirst_styled_collect (id : String) :
    (∀ n, treeAllB (fun m => !styledQ m) n = true →
      (((applyFirstWhereN (fun n => n.getAttr "data-element-id" == some id)
          applySelectionStyling n).2 = true →
        ∃ m, treeCollect styledQ (applyFirstWhereN
            (fun n => n.getAttr "data-element-id" == some id)
            applySelectionStyling n).1 = [m] ∧
          (m.getAttr "data-element-id" == some id) = true) ∧
       ((applyFirstWhereN (fun n => n.getAttr "data-element-id" == some id)
          applySelectionStyling n).2 = false →
        treeCollect styledQ (applyFirstWhereN
            (fun n => n.getAttr "data-element-id" == some id)
            applySelectionStyling n).1 = []))) ∧
    (∀ cs, forestAllB (fun m => !styledQ m) cs = true →
      (((applyFirstWhereL (fun n => n.getAttr "data-element-id" == some id)
          applySelectionStyling cs).2 = true →
        ∃ m, forestCollect styledQ (applyFirstWhereL
            (fun n => n.getAttr "data-element-id" == some id)
            applySelectionStyling cs).1 = [m] ∧
          (m.getAttr "data-element-id" == some id) = true) ∧
       ((applyFirstWhereL (fun n => n.getAttr "data-element-id" == some id)
          applySelectionStyling cs).2 = false →
        forestCollect styledQ (applyFirstWhereL
            (fun n => n.getAttr "data-element-id" == some id)
            applySelectionStyling cs).1 = []))) := by
  refine HNode.pairInduction _ _ ?_ ?_ ?_ ?_
  · intro s hall
    cases hp : ((HNode.text s).getAttr "data-element-id" == some id) with
    | true => simp [HNode.getAttr] at hp
    | false =>
      rw [applyFirstWhereN]
      simp only [hp, Bool.false_eq_true, if_false]
      constructor
      · intro h
        cases h
      · intro _
        simp [treeCollect, styledQ, HNode.isTagged, HNode.getAttr]
  · intro i t a st cs ih hall
    have hallcs : forestAllB (fun m => !styledQ m) cs = true := by
      rw [treeAllB, Bool.and_eq_true] at hall
      exact hall.2
    have hroot : styledQ (HNode.elem i t a st cs) = false := by
      rw [treeAllB, Bool.and_eq_true] at hall
      simpa using hall.1
    cases hp : ((HNode.elem i t a st cs).getAttr "data-element-id" == some id) with
    | true =>
      rw [applyFirstWhereN]
      simp only [hp, if_true]
      constructor
      · intro _
        exact applySelection_collect id _ hp hall
      · intro h
        cases h
    | false =>
      rw [applyFirstWhereN]
      simp only [hp, Bool.false_eq_true, if_false]
      obtain ⟨ihf, ihn⟩ := ih hallcs
      have hroot' : styledQ (HNode.elem i t a st
          (applyFirstWhereL (fun n => n.getAttr "data-element-id" == some id)
            applySelectionStyling cs).1) = false := hroot
      constructor
      · intro hfd
        obtain ⟨m, hm, hmid⟩ := ihf hfd
        refine ⟨m, ?_, hmid⟩
        rw [treeCollect, hroot']
        simpa using hm
      · intro hfd
        rw [treeCollect, hroot']
        simpa using ihn hfd
  · intro _
    constructor
    · intro h
      cases h
    · intro _
      rfl
  · intro c cs ihc ihcs hall
    rw [forestAllB, Bool.and_eq_true] at hall
    obtain ⟨hallc, hallcs⟩ := hall
    obtain ⟨ihcf, ihcn⟩ := ihc hallc
    obtain ⟨ihsf, ihsn⟩ := ihcs hallcs
    rw [applyFirstWhereL]
    cases hfd : (applyFirstWhereN (fun n => n.getAttr "data-element-id" == some id)
        applySelectionStyling c).2 with
    | true =>
      simp only [hfd, if_true]
      constructor
      · intro _
        obtain ⟨m, hm, hmid⟩ := ihcf hfd
        refine ⟨m, ?_, hmid⟩
        rw [forestCollect, hm,
          (collect_nil_of_allB styledQ).2 cs hallcs]
        rfl
      · intro h
        cases h
    | false =>
      simp only [hfd, Bool.false_eq_true, if_false]
      have hcnil := ihcn hfd
      constructor
      · intro hfd'
        obtain ⟨m, hm, hmid⟩ := ihsf hfd'
        refine ⟨m, ?_, hmid⟩
        rw [forestCollect, hcnil, hm]
        rfl
      · intro hfd'
        rw [forestCollect, hcnil, ihsn hfd']
        rfl

/-- C3: after any `selectElement(id)` call, whatever the prior styling
state of the container, at most one tagged element carries selection
styling; every element that carries it has identity attribute equal to
the selected id (so none carries it when the id is null or matches no
element); and when a truthy id matches a live element, exactly one
element is styled. -/
theorem selectElement_selection_exclusivity (container : HNode) (eid : Option String) :
    (styledTagged (builderSelectElement container eid).1).length ≤ 1 ∧
    (styledTagged (builderSelectElement container eid).1).all
      (fun n => n.getAttr "data-element-id" == eid) = true ∧
    (∀ id, eid = some id → (id == "") = false →
      (queryFirstTagged (clearAllSelections container) id).isSome = true →
      (styledTagged (builderSelectElement container eid).1).length = 1) := by
  have hc := styledTagged_clear container
  cases eid with
  | none =>
    refine ⟨?_, ?_, ?_⟩
    · simp [builderSelectElement, hc]
    · simp [builderSelectElement, hc]
    · intro id h
      cases h
  | some id =>
    cases hid : (id == "") with
    | true =>
      refine ⟨?_, ?_, ?_⟩
      · simp [builderSelectElement, hid, hc]
      · simp [builderSelectElement, hid, hc]
      · intro id' he hne _
        injection he with hii
        rw [hii] at hid
        rw [hid] at hne
        cases hne
    | false =>
      cases hq : queryFirstTagged (clearAllSelections container) id with
      | none =>
        refine ⟨?_, ?_, ?_⟩
        · simp [builderSelectElement, hid, hq, hc]
        · simp [builderSelectElement, hid, hq, hc]
        · intro id' he hne hsome
          injection he with hii
          rw [← hii] at hsome
          rw [hq] at hsome
          cases hsome
      | some el =>
        have hallc := clear_children_all container
        have hfound : (applyFirstWhereL
            (fun n => n.getAttr "data-element-id" == some id)
            applySelectionStyling (clearAllSelections container).childrenOf).2 = true := by
          cases hfd : (applyFirstWhereL
              (fun n => n.getAttr "data-element-id" == some id)
              applySelectionStyling (clearAllSelections container).childrenOf).2 with
          | true => rfl
          | false =>
            have hnil := (applyFirst_found_eq _ applySelectionStyling).2 _ |>.mp hfd
            rw [queryFirstTagged, hnil] at hq
            cases hq
        obtain ⟨m, hm, hmid⟩ :=
          ((applyFirst_styled_collect id).2 _ hallc).1 hfound
        have hstyled : styledTagged (builderSelectElement container (some id)).1 = [m] := by
          rw [builderSelectElement]
          simp only [hid, Bool.false_eq_true, if_false, hq]
          rw [styledTagged, applySelectionAt]
          cases hcc : clearAllSelections container with
          | text s =>
            rw [hcc] at hq
            simp [queryFirstTagged, HNode.childrenOf, forestCollect] at hq
          | elem i t a st cs =>
            rw [hcc] at hm
            exact hm
        refine ⟨?_, ?_, ?_⟩
        · rw [hstyled]
          simp
        · rw [hstyled]
          simpa using hmid
        · intro id' he hne hsome
          rw [hstyled]
          rfl

/-- C3 witness: selecting `b` in a container where both paragraphs
erroneously carry selection styling leaves exactly one styled element. -/
theorem selectElement_selection_exclusivity_witness :
    (styledTagged (builderSelectElement cPrestyled (some "b")).1).length = 1 :=
  (selectElement_selection_exclusivity cPrestyled (some "b")).2.2 "b" rfl (by decide)
    (by rfl)

/-! ## C5: the nearest-midpoint scan -/

/-- The running fold of `findInsertPosition` related to the stable
first-minimum of the remaining elements. -/
theorem foldl_fip (rects : Nat → ℚ × ℚ) (dropY : ℚ) (els : List HNode) :
    ∀ (m : ℚ) (ib : Option Nat),
      els.foldl (fipStep rects dropY) (some (m, ib)) =
        (match argminFirst (elDist rects dropY) els with
         | none => some (m, ib)
         | some y =>
           if elDist rects dropY y < m then
             some (elDist rects dropY y,
               if dropY < elMid rects y then some y.nidOf else none)
           else some (m, ib)) := by
  induction els with
  | nil =>
    intro m ib
    rfl
  | cons e rest ih =>
    intro m ib
    rw [List.foldl_cons]
    have hstep : fipStep rects dropY (some (m, ib)) e =
        if elDist rects dropY e < m then
          some (elDist rects dropY e,
            if dropY < elMid rects e then some e.nidOf else none)
        else some (m, ib) := rfl
    rw [hstep, argminFirst]
    rcases harg : argminFirst (elDist rects dropY) rest with _ | y
    · by_cases hd : elDist rects dropY e < m
      · rw [if_pos hd, ih, harg]
        simp [hd]
      · rw [if_neg hd, ih, harg]
        simp [hd]
    · by_cases hd : elDist rects dropY e < m
      · rw [if_pos hd, ih, harg]
        by_cases hy : elDist rects dropY y < elDist rects dropY e
        · have hym : elDist rects dropY y < m := lt_trans hy hd
          simp [hy, hym]
        · simp [hy, hd]
      · rw [if_neg hd, ih, harg]
        by_cases hy : elDist rects dropY y < elDist rects dropY e
        · simp [hy]
        · have hym : ¬ elDist rects dropY y < m := by
            push_neg at hy hd ⊢
            linarith
          simp [hy, hd, hym]

/-- The absolute value of the model agrees with the mathematical one. -/
theorem absQ_eq_abs (x : ℚ) : absQ x = |x| := by
  rw [absQ]
  split
  · rw [abs_of_neg]
    assumption
  · rw [abs_of_nonneg]
    linarith [not_lt.mp (by assumption)]

/-- The scan equals the specification-side nearest-first choice on any
element list. -/
theorem fipScan_eq_spec (rects : Nat → ℚ × ℚ) (dropY : ℚ) (els : List HNode) :
    fipScan rects dropY els = specNearest rects dropY els := by
  rw [fipScan, specNearest]
  cases els with
  | nil => rfl
  | cons e rest =>
    rw [List.foldl_cons]
    have hstep0 : fipStep rects dropY none e =
        some (elDist rects dropY e,
          if dropY < elMid rects e then some e.nidOf else none) := rfl
    rw [hstep0, foldl_fip, argminFirst]
    rcases harg : argminFirst (elDist rects dropY) rest with _ | y
    · rfl
    · by_cases hy : elDist rects dropY y < elDist rects dropY e
      · simp [hy]
      · simp [hy]

/-- The scan equals the specification-side nearest-first choice. -/
theorem findInsertPosition_eq_spec (rects : Nat → ℚ × ℚ) (dropY : ℚ) (c : HNode) :
    findInsertPosition rects dropY (some c) =
      specNearest rects dropY (containerTagged c) :=
  fipScan_eq_spec rects dropY (containerTagged c)

/-- C5 (amended): `findInsertPosition` implements the nearest-midpoint
rule — minimum absolute distance from the pointer to the vertical
midpoint, document-order first element winning ties under the strict
comparison, insert-before when the pointer is above that midpoint and
append (null) otherwise — over ALL tagged elements of the container at
any depth (as `querySelectorAll` returns them), not only top-level
ones; a missing container yields null. -/
theorem findInsertPosition_nearest_midpoint_all_tagged (rects : Nat → ℚ × ℚ)
    (dropY : ℚ) :
    (∀ c : HNode, findInsertPosition rects dropY (some c) =
      specNearest rects dropY (containerTagged c)) ∧
    findInsertPosition rects dropY none = none :=
  ⟨fun c => findInsertPosition_eq_spec rects dropY c, rfl⟩

/-- C5 counterexample: with a nested tagged paragraph whose midpoint is
nearest to the pointer, the code returns the nested element, while the
claimed top-level-only scan would return the outer block — the claim
that only top-level tagged elements are scanned is false. -/
theorem findInsertPosition_scans_nested_elements :
    findInsertPosition rectsNested 4 (some cNested) = some 2 ∧
    findInsertPositionTopLevel rectsNested 4 (some cNested) = some 1 ∧
    (cNested.childrenOf.filter HNode.isTagged).all (fun n => !(n.nidOf == 2)) = true := by
  have houter : elDist rectsNested 4 (HNode.elem 1 "div" [("data-element-id", "outer")] []
      [HNode.elem 2 "p" [("data-element-id", "inner")] [] [HNode.text "x"]]) = 46 := by
    rw [elDist, elMid]
    norm_num [rectsNested, HNode.nidOf, absQ]
  have hinner : elDist rectsNested 4 (HNode.elem 2 "p" [("data-element-id", "inner")] []
      [HNode.text "x"]) = 1 := by
    rw [elDist, elMid]
    norm_num [rectsNested, HNode.nidOf, absQ]
  have hmidInner : elMid rectsNested (HNode.elem 2 "p" [("data-element-id", "inner")] []
      [HNode.text "x"]) = 5 := by
    rw [elMid]
    norm_num [rectsNested, HNode.nidOf]
  have hmidOuter : elMid rectsNested (HNode.elem 1 "div" [("data-element-id", "outer")] []
      [HNode.elem 2 "p" [("data-element-id", "inner")] [] [HNode.text "x"]]) = 50 := by
    rw [elMid]
    norm_num [rectsNested, HNode.nidOf]
  refine ⟨?_, ?_, ?_⟩
  · have h0 : findInsertPosition rectsNested 4 (some cNested) =
        fipScan rectsNested 4
          [HNode.elem 1 "div" [("data-element-id", "outer")] []
            [HNode.elem 2 "p" [("data-element-id", "inner")] [] [HNode.text "x"]],
           HNode.elem 2 "p" [("data-element-id", "inner")] [] [HNode.text "x"]] := rfl
    rw [h0, fipScan_eq_spec, specNearest]
    simp only [argminFirst, hinner, houter]
    norm_num [hmidInner, HNode.nidOf]
  · have h0 : findInsertPositionTopLevel rectsNested 4 (some cNested) =
        fipScan rectsNested 4
          [HNode.elem 1 "div" [("data-element-id", "outer")] []
            [HNode.elem 2 "p" [("data-element-id", "inner")] [] [HNode.text "x"]]] := rfl
    rw [h0, fipScan_eq_spec, specNearest]
    simp only [argminFirst]
    norm_num [hmidOuter, HNode.nidOf]
  · rfl

/-! ## C7: DragState clearing at drag termination -/

/-- C7 (amended): after every `handleDrop` execution that terminates
normally — whichever branch is taken and whether the inner operation
succeeds or returns false — and after every `handleDragEnd` execution,
both drag-state fields are null.  An execution aborted by the DOM
exception thrown inside the reorder reinsertion never reaches the
clearing (see the counterexample). -/
theorem dragState_cleared_on_normal_termination :
    (∀ (cfg : DropCfg) (res : DropResult), handleDrop cfg = .ok res →
      res.dragState = { draggedElementType := none, draggedElementId := none }) ∧
    (∀ contentRef : Option HNode, (handleDragEnd contentRef).dragState =
      { draggedElementType := none, draggedElementId := none }) := by
  constructor
  · intro cfg res h
    simp only [handleDrop] at h
    split at h
    · split at h
      · split at h
        · exact Except.noConfusion h
        · injection h with h2
          rw [← h2]
      · injection h with h2
        rw [← h2]
    · split at h
      · injection h with h2
        rw [← h2]
      · injection h with h2
        rw [← h2]
  · intro contentRef
    cases contentRef <;> rfl

/-- C7 witness: the empty-payload drop on an unmounted container
terminates normally with both fields null. -/
theorem dragState_cleared_on_normal_termination_witness :
    ({ container := none, events := [],
       dragState := { draggedElementType := none, draggedElementId := none } } :
      DropResult).dragState =
      { draggedElementType := none, draggedElementId := none } :=
  dragState_cleared_on_normal_termination.1 cfgEmptyDrop _ rfl

/-- C7 counterexample: dropping the dragged element just above its own
midpoint makes `findInsertPosition` return the element itself; after
the detach, `insertBefore` throws, `handleDrop` aborts, and the
drag-state clearing at the end of the handler is never executed — the
claim that both fields are null after every execution fails here. -/
theorem handleDrop_can_abort_without_clearing :
    handleDrop cfgSelfDropB = .error .notFound := by
  have hmap : Option.map removeIndicators (some cPair) = some cPair := rfl
  have hda : elDist rectsPairB 4 (HNode.elem 1 "p" [("data-element-id", "a")] []
      [HNode.text "first"]) = 21 := by
    rw [elDist, elMid]
    norm_num [rectsPairB, HNode.nidOf, absQ]
  have hdb : elDist rectsPairB 4 (HNode.elem 2 "p" [("data-element-id", "b")] []
      [HNode.text "second"]) = 1 := by
    rw [elDist, elMid]
    norm_num [rectsPairB, HNode.nidOf, absQ]
  have hmb : elMid rectsPairB (HNode.elem 2 "p" [("data-element-id", "b")] []
      [HNode.text "second"]) = 5 := by
    rw [elMid]
    norm_num [rectsPairB, HNode.nidOf]
  have hfip : findInsertPosition rectsPairB 4 (some cPair) = some 2 := by
    have h0 : findInsertPosition rectsPairB 4 (some cPair) =
        fipScan rectsPairB 4
          [HNode.elem 1 "p" [("data-element-id", "a")] [] [HNode.text "first"],
           HNode.elem 2 "p" [("data-element-id", "b")] [] [HNode.text "second"]] := rfl
    rw [h0, fipScan_eq_spec, specNearest]
    simp only [argminFirst, hda, hdb]
    norm_num [hmb, HNode.nidOf]
  simp only [handleDrop, cfgSelfDropB, hmap, hfip]
  rfl

/-! ## C8: failure policy of the engine -/

/-- C8: the guard behaviour holds — a missing container or an
unlocatable element or template makes `reorderElement` and
`createNewElement` return false with no mutation and no event — but
the final conjunct exhibits a reachable drop on which the engine
throws a DOM `NotFoundError` across its public boundary instead of
returning false, contradicting the never-throws policy. -/
theorem reorder_create_safety_and_throw :
    (∀ (id : String) (ib : Option Nat),
      reorderElement none id ib = .ok (false, none, [])) ∧
    (∀ (c : HNode) (id : String) (ib : Option Nat),
      queryFirstTagged c id = none →
      reorderElement (some c) id ib = .ok (false, some c, [])) ∧
    (∀ (lib : List LibItem) (cref : Option HNode) (ty : String) (s : Nat × String),
      lib.find? (fun it => it.id == ty) = none →
      createNewElement lib cref ty s = (false, cref, [])) ∧
    (∀ (lib : List LibItem) (ty : String) (s : Nat × String),
      createNewElement lib none ty s = (false, none, [])) ∧
    handleDrop cfgSelfDrop = .error .notFound := by
  have hmap : Option.map removeIndicators (some cPair) = some cPair := rfl
  have hda : elDist rectsPair 4 (HNode.elem 1 "p" [("data-element-id", "a")] []
      [HNode.text "first"]) = 1 := by
    rw [elDist, elMid]
    norm_num [rectsPair, HNode.nidOf, absQ]
  have hdb : elDist rectsPair 4 (HNode.elem 2 "p" [("data-element-id", "b")] []
      [HNode.text "second"]) = 21 := by
    rw [elDist, elMid]
    norm_num [rectsPair, HNode.nidOf, absQ]
  have hma : elMid rectsPair (HNode.elem 1 "p" [("data-element-id", "a")] []
      [HNode.text "first"]) = 5 := by
    rw [elMid]
    norm_num [rectsPair, HNode.nidOf]
  have hfip : findInsertPosition rectsPair 4 (some cPair) = some 1 := by
    have h0 : findInsertPosition rectsPair 4 (some cPair) =
        fipScan rectsPair 4
          [HNode.elem 1 "p" [("data-element-id", "a")] [] [HNode.text "first"],
           HNode.elem 2 "p" [("data-element-id", "b")] [] [HNode.text "second"]] := rfl
    rw [h0, fipScan_eq_spec, specNearest]
    simp only [argminFirst, hda, hdb]
    norm_num [hma, HNode.nidOf]
  refine ⟨?_, ?_, ?_, ?_, ?_⟩
  · intro id ib
    rfl
  · intro c id ib h
    simp [reorderElement, h]
  · intro lib cref ty s h
    simp [createNewElement, h]
  · intro lib ty s
    rw [createNewElement]
    cases hfind : (lib.find? (fun it => it.id == ty)).map (fun it => it.template) with
    | none => rfl
    | some tmpl =>
      cases hr : (tmpl.raw == "") with
      | true => simp [hr]
      | false => simp [hr]
  · simp only [handleDrop, cfgSelfDrop, hmap, hfip]
    rfl

/-- C8 witness: the not-found guard at a concrete container. -/
theorem reorder_create_safety_and_throw_witness :
    reorderElement (some cPair) "zzz" none = .ok (false, some cPair, []) :=
  reorder_create_safety_and_throw.2.1 cPair "zzz" none (by rfl)

/-! ## C10: canvas wipe and append in createNewElement -/

/-- C10: when the canvas holds no tagged element (or its markup
contains the literal `Start Building Your Layout`), `createNewElement`
erases the entire existing markup — untagged placeholder or manually
typed content included — before appending; otherwise the existing
children are kept unchanged and the new element is appended at the
end.  The new element is built from only the first top-level element
node of the template (`firstElementChild`), tagged with the fresh id
and given base styling. -/
theorem createNewElement_replace_or_append (lib : List LibItem) (c : HNode)
    (ty : String) (s : Nat × String) (item : LibItem) (newEl0 : HNode)
    (hc : c.isElem = true)
    (h1 : lib.find? (fun it => it.id == ty) = some item)
    (h2 : (item.template.raw == "") = false)
    (h3 : item.template.dom.find? HNode.isElem = some newEl0) :
    (createNewElement lib (some c) ty s).1 = true ∧
    ((createNewElement lib (some c) ty s).2.1).map HNode.childrenOf =
      some ((if (containerTagged c).length == 0 ||
          strIncludes (innerHTMLOf c) "Start Building Your Layout"
        then [] else c.childrenOf) ++
        [applyBuilderStyling false
          (newEl0.setAttr "data-element-id"
            (generateElementId "element" none s.1 s.2))]) := by
  cases c with
  | text s0 => simp [HNode.isElem] at hc
  | elem i t a st cs =>
    constructor
    · simp [createNewElement, h1, h2, h3]
    · simp only [createNewElement, h1, Option.map_some', h2, Bool.false_eq_true,
        if_false, h3, HNode.withChildren, HNode.childrenOf]

/-- C10 witness: dropping a paragraph on a canvas holding only untagged
typed markup wipes it and leaves exactly the new tagged paragraph. -/
theorem createNewElement_replace_or_append_witness :
    (createNewElement libParagraph (some cUntagged) "paragraph"
      (1700000000000, "k7q2m1x9z")).1 = true ∧
    ((createNewElement libParagraph (some cUntagged) "paragraph"
      (1700000000000, "k7q2m1x9z")).2.1).map HNode.childrenOf =
      some [applyBuilderStyling false
        ((HNode.elem 10 "p" [] [("margin", "16px 0"), ("line-height", "1.6")]
          [.text "New paragraph text"]).setAttr "data-element-id"
          (generateElementId "element" none 1700000000000 "k7q2m1x9z"))] := by
  have h := createNewElement_replace_or_append libParagraph cUntagged "paragraph"
    (1700000000000, "k7q2m1x9z")
    { id := "paragraph", title := "Paragraph",
      template :=
        { raw := "<p style=\"margin: 16px 0; line-height: 1.6;\">New paragraph text</p>",
          dom := [.elem 10 "p" [] [("margin", "16px 0"), ("line-height", "1.6")]
            [.text "New paragraph text"]] } }
    (.elem 10 "p" [] [("margin", "16px 0"), ("line-height", "1.6")]
      [.text "New paragraph text"])
    rfl rfl (by decide) rfl
  exact ⟨h.1, h.2.trans (by rfl)⟩

end BookBuilder
